import Mathlib

/-!
Shallow embedding of the bank-statement import pipeline of
`src/lib/pdfParser.ts` and the CSV helpers of the financial-data context
(`parseCSVTransaction` / `parseCSVFile`), together with proofs about the
frozen claims C1-C10.

Strings are modelled as `List Char`; JS numbers as `Option ℚ` where `none`
plays the role of NaN (`parseFloat` failure).  All regular expressions of the
source are fixed concrete patterns, embedded as executable matchers with the
exact ECMAScript semantics they have there (greedy quantifiers with
backtracking, global scan from the left, non-overlapping matches).
-/

set_option maxHeartbeats 1000000
set_option maxRecDepth 100000

abbrev Str := List Char

def strL (s : String) : Str := s.data

/-- JS whitespace characters relevant to `\s`, `trim` and `split(/\s+/)`. -/
def isSpaceJS (c : Char) : Bool :=
  c = ' ' || c = '\t' || c = '\n' || c = '\r' || c = '\x0b' || c = '\x0c'

/-- Word characters of `\w` of ECMAScript: ASCII letters, digits, underscore. -/
def isWordChar (c : Char) : Bool :=
  c.isAlpha || c.isDigit || c = '_'

/-- JS `String.prototype.trim`. -/
def trimJS (cs : Str) : Str :=
  ((cs.dropWhile isSpaceJS).reverse.dropWhile isSpaceJS).reverse

/-- JS `String.prototype.toLowerCase` (ASCII, which is all the source compares). -/
def toLowerJS (cs : Str) : Str := cs.map Char.toLower

/-- Substring test, `String.prototype.includes`. -/
def isSubstring (needle : Str) : Str → Bool
  | [] => needle.isEmpty
  | c :: cs => needle.isPrefixOf (c :: cs) || isSubstring needle cs

/-- Rest of `hay` after the first occurrence of `needle`, if any. -/
def dropAfterFirst (needle : Str) : Str → Option Str
  | [] => if needle.isEmpty then some [] else none
  | c :: cs =>
    if needle.isPrefixOf (c :: cs) then some ((c :: cs).drop needle.length)
    else dropAfterFirst needle cs

/-- Test for a regex of the shape `a.*b.*c`: the words occur in order. -/
def containsSeq : Str → List Str → Bool
  | _, [] => true
  | hay, w :: ws =>
    match dropAfterFirst w hay with
    | some rest => containsSeq rest ws
    | none => false

/-- JS `String.prototype.split('\n')` and friends: split at every separator char. -/
def splitEach (isSep : Char → Bool) : Str → List Str
  | [] => [[]]
  | c :: cs =>
    if isSep c then [] :: splitEach isSep cs
    else
      match splitEach isSep cs with
      | t :: ts => (c :: t) :: ts
      | [] => [[c]]

theorem dropWhile_length_le (p : Char → Bool) :
    ∀ l : Str, (l.dropWhile p).length ≤ l.length := by
  intro l
  induction l with
  | nil => simp [List.dropWhile]
  | cons c cs ih =>
    by_cases h : p c <;> simp [List.dropWhile, h] <;> omega

/-- JS `String.prototype.split(/X+/)`: split at maximal runs of separator chars,
with a leading/trailing empty piece when the string starts/ends with a run. -/
def splitRunsAux (isSep : Char → Bool) (cur : Str) : Str → List Str
  | [] => [cur.reverse]
  | c :: cs =>
    if isSep c then cur.reverse :: splitRunsAux isSep [] (cs.dropWhile isSep)
    else splitRunsAux isSep (c :: cur) cs
termination_by cs => cs.length
decreasing_by
  · simpa using Nat.lt_succ_of_le (dropWhile_length_le isSep cs)
  · simp

def splitRuns (isSep : Char → Bool) (cs : Str) : List Str :=
  splitRunsAux isSep [] cs

/-- JS `Array.prototype.join(' ')`. -/
def joinSpace (parts : List Str) : Str :=
  List.intercalate [' '] parts

/-- JS `Array.prototype.findIndex`, returning `-1` when absent. -/
def jsFindIdx (p : Str → Bool) (l : List Str) : Int :=
  match l.findIdx? p with
  | some i => (i : Int)
  | none => -1

/-- JS `String.prototype.padStart(2, '0')`. -/
def padStart2 (cs : Str) : Str :=
  if cs.length ≥ 2 then cs else List.replicate (2 - cs.length) '0' ++ cs

def digitVal (c : Char) : Nat := c.toNat - '0'.toNat

def digitsToNat (cs : Str) : Nat :=
  cs.foldl (fun acc c => acc * 10 + digitVal c) 0

/-- JS `parseFloat` restricted to the shapes this code feeds it (no exponents):
optional leading whitespace and sign, then integer digits and an optional
fractional part; trailing garbage is ignored; `none` is NaN. -/
def parseFloatQ (cs : Str) : Option ℚ :=
  let cs := cs.dropWhile isSpaceJS
  let sign : ℚ := if cs.head? = some '-' then -1 else 1
  let cs := if cs.head? = some '-' || cs.head? = some '+' then cs.tail else cs
  let intDigits := cs.takeWhile Char.isDigit
  let rest := cs.dropWhile Char.isDigit
  let fracDigits :=
    match rest with
    | '.' :: r => r.takeWhile Char.isDigit
    | _ => []
  if intDigits.isEmpty && fracDigits.isEmpty then none
  else
    some (sign * ((digitsToNat intDigits : ℚ) +
      (digitsToNat fracDigits : ℚ) / ((10 : ℚ) ^ fracDigits.length)))

/-- JS `x.replace(/,/g, '')`. -/
def stripCommas (cs : Str) : Str := cs.filter (fun c => c ≠ ',')

/-- JS `a || b` on numbers, with `a : Option ℚ` (`none` = NaN, falsy like 0). -/
def jsOrQ (a : Option ℚ) (b : ℚ) : ℚ :=
  match a with
  | some q => if q = 0 then b else q
  | none => b

/-- Truthiness of `parseFloat(x) > 0` style tests: NaN compares false. -/
def jsGtZero (a : Option ℚ) : Bool :=
  match a with
  | some q => decide (0 < q)
  | none => false

/-!
Regex matchers.  Every date pattern in `BANK_PATTERNS` has the shape
`\d{k,2}SEP\d{k,2}SEP\d{4}` with `k ∈ {1,2}` and `SEP` a set of separator
characters; the amount pattern is `[+-]?\d{1,3}(?:,\d{3})*(?:\.\d{2})?` for
every bank.  A matcher tries to match at the head of the list and returns the
matched characters together with the rest of the input.
-/

/-- One of the `BANK_PATTERNS` entries.  Only the date pattern varies between
banks; the `descriptionPattern` and `balanceKeywords` fields of the source are
never read by any parsing function and are omitted. -/
structure BankPattern where
  dMin : Nat
  seps : List Char
deriving Repr, DecidableEq

def hdfcPattern : BankPattern := ⟨2, ['/']⟩
def iciciPattern : BankPattern := ⟨2, ['-']⟩
def sbiPattern : BankPattern := ⟨2, ['-']⟩
def axisPattern : BankPattern := ⟨2, ['/']⟩
def genericPattern : BankPattern := ⟨1, ['/', '-']⟩

/-- Candidates for a `\d{dMin,2}` field in greedy preference order
(two digits first, one digit only when `dMin = 1`). -/
def matchDayField (dMin : Nat) : Str → List (Str × Str)
  | c1 :: c2 :: rest =>
    (if c1.isDigit && c2.isDigit then [([c1, c2], rest)] else []) ++
    (if dMin = 1 && c1.isDigit then [([c1], c2 :: rest)] else [])
  | [c1] => if dMin = 1 && c1.isDigit then [([c1], [])] else []
  | [] => []

def matchSep (seps : List Char) : Str → Option (Char × Str)
  | c :: rest => if seps.contains c then some (c, rest) else none
  | [] => none

def matchYear : Str → Option (Str × Str)
  | a :: b :: c :: d :: rest =>
    if a.isDigit && b.isDigit && c.isDigit && d.isDigit then
      some ([a, b, c, d], rest)
    else none
  | _ => none

/-- Match the date pattern at the head of the input, with the backtracking
order of the ECMAScript engine. -/
def matchDateAt (p : BankPattern) (cs : Str) : Option (Str × Str) :=
  (matchDayField p.dMin cs).findSome? fun d1 =>
    (matchSep p.seps d1.2).bind fun s1 =>
      (matchDayField p.dMin s1.2).findSome? fun d2 =>
        (matchSep p.seps d2.2).bind fun s2 =>
          (matchYear s2.2).map fun y =>
            (d1.1 ++ s1.1 :: (d2.1 ++ s2.1 :: y.1), y.2)

/-- Greedy `\d{1,3}` (at least one digit, at most three). -/
def takeUpTo3Digits : Str → Option (Str × Str)
  | c1 :: rest =>
    if c1.isDigit then
      match rest with
      | c2 :: rest2 =>
        if c2.isDigit then
          match rest2 with
          | c3 :: rest3 =>
            if c3.isDigit then some ([c1, c2, c3], rest3)
            else some ([c1, c2], c3 :: rest3)
          | [] => some ([c1, c2], [])
        else some ([c1], c2 :: rest2)
      | [] => some ([c1], [])
    else none
  | [] => none

/-- Greedy `(?:,\d{3})*`. -/
def commaGroups : Str → Str × Str
  | ',' :: a :: b :: c :: rest =>
    if a.isDigit && b.isDigit && c.isDigit then
      let (g, r) := commaGroups rest
      (',' :: a :: b :: c :: g, r)
    else ([], ',' :: a :: b :: c :: rest)
  | cs => ([], cs)

/-- Greedy `(?:\.\d{2})?`. -/
def fracPart : Str → Str × Str
  | '.' :: a :: b :: rest =>
    if a.isDigit && b.isDigit then (['.', a, b], rest)
    else ([], '.' :: a :: b :: rest)
  | cs => ([], cs)

def matchAmountBody (cs : Str) : Option (Str × Str) :=
  (takeUpTo3Digits cs).map fun d =>
    let (g, r2) := commaGroups d.2
    let (f, r3) := fracPart r2
    (d.1 ++ g ++ f, r3)

/-- Match `[+-]?\d{1,3}(?:,\d{3})*(?:\.\d{2})?` at the head of the input.
When a sign is present but no digit follows, the whole attempt at this
position fails (backtracking to the empty sign would put `\d` on the sign
character). -/
def matchAmountAt (cs : Str) : Option (Str × Str) :=
  match cs with
  | c :: rest =>
    if c = '+' || c = '-' then
      (matchAmountBody rest).map fun m => (c :: m.1, m.2)
    else matchAmountBody cs
  | [] => none

/-- Global scan, as in `String.prototype.match` with the `g` flag: try a
match at every position from the left, skip past each match found (all our
matchers consume at least one character, so the fuel `cs.length` is never
exhausted before the input is). -/
def scanAux (matchAt : Str → Option (Str × Str)) : Nat → Str → List Str
  | 0, _ => []
  | _, [] => []
  | fuel + 1, c :: cs =>
    match matchAt (c :: cs) with
    | some (m, rest) => m :: scanAux matchAt fuel rest
    | none => scanAux matchAt fuel cs

def jsMatchAll (matchAt : Str → Option (Str × Str)) (cs : Str) : List Str :=
  scanAux matchAt cs.length cs

/-- JS `re.test(s)` for the global patterns, and the boolean use of
`s.match(re)`.  (The stateful `lastIndex` of the source's shared regex
objects is reset to 0 by every `match`/`replace` call and by every failing
`test`, and a succeeding `test` is always the last callback `findIndex`
runs, so the observable behaviour is stateless.) -/
def jsTest (matchAt : Str → Option (Str × Str)) (cs : Str) : Bool :=
  !(jsMatchAll matchAt cs).isEmpty

/-- JS `s.replace(re, rep)` for a global pattern. -/
def replaceAllAux (matchAt : Str → Option (Str × Str)) (rep : Str) :
    Nat → Str → Str
  | 0, cs => cs
  | _, [] => []
  | fuel + 1, c :: cs =>
    match matchAt (c :: cs) with
    | some (_, rest) => rep ++ replaceAllAux matchAt rep fuel rest
    | none => c :: replaceAllAux matchAt rep fuel cs

def jsReplaceAll (matchAt : Str → Option (Str × Str)) (rep : Str) (cs : Str) :
    Str :=
  replaceAllAux matchAt rep cs.length cs

/-- Matcher for `/[^\w\s]/g` (single non-word non-space character). -/
def matchNonWordAt : Str → Option (Str × Str)
  | c :: rest =>
    if !(isWordChar c) && !(isSpaceJS c) then some ([c], rest) else none
  | [] => none

/-- Matcher for `/\s+/g` (maximal whitespace run). -/
def matchSpaceRunAt : Str → Option (Str × Str)
  | c :: rest =>
    if isSpaceJS c then
      some (c :: rest.takeWhile isSpaceJS, rest.dropWhile isSpaceJS)
    else none
  | [] => none

/-! Data model. -/

inductive TxType
  | credit
  | debit
deriving Repr, DecidableEq

inductive Severity
  | warning
  | error
deriving Repr, DecidableEq

structure ImportError where
  message : Str
  severity : Severity
  row : Option Nat := none
deriving Repr, DecidableEq

/-- The `ParsedTransaction` record of `types/financial`.  The TS field `type` is a Lean
keyword and is embedded as `txType`.  `balance` is `number | undefined` where
the number may be NaN, hence the nested option. -/
structure ParsedTransaction where
  id : Str
  date : Str
  description : Str
  amount : ℚ
  txType : TxType
  category : Str
  isReconciled : Bool
  confidence : ℚ
  balance : Option (Option ℚ) := none
  reference : Option Str := none
deriving Repr, DecidableEq

/-- The id-assigning pushes of the source: the `k`-th record pushed gets id
`mk k` (`temp-k`, `pdf-NOW-k`). -/
def assignIds (mk : Nat → Str) : Nat → List ParsedTransaction →
    List ParsedTransaction
  | _, [] => []
  | i, tx :: rest => { tx with id := mk i } :: assignIds mk (i + 1) rest

def tempId (i : Nat) : Str := strL "temp-" ++ strL (toString i)

/-! `standardizeDate` and the categorizers. -/

/-- The source's `standardizeDate(dateStr)`; `today` stands for
`new Date().toISOString().split('T')[0]`. -/
def standardizeDate (dateStr : Str) (today : Str) : Str :=
  let cleaned := dateStr.filter fun c => c.isDigit || c = '/' || c = '-'
  let parts := splitEach (fun c => c = '/' || c = '-') cleaned
  match parts with
  | [day, month, year] =>
    let fullYear := if year.length = 2 then '2' :: '0' :: year else year
    fullYear ++ '-' :: (padStart2 month ++ '-' :: padStart2 day)
  | _ => today

/-- The `categorizeTransaction` chain of the PDF path (keyword chain). -/
def categorizeTransaction (description : Str) : Str :=
  let desc := toLowerJS description
  let has := fun (w : String) => isSubstring (strL w) desc
  if has "salary" || has "credit" || has "deposit" then strL "income"
  else if has "interest" || has "dividend" then strL "income"
  else if has "refund" || has "cashback" then strL "income"
  else if has "grocery" || has "supermarket" || has "food" then strL "food"
  else if has "restaurant" || has "cafe" || has "dining" then strL "food"
  else if has "swiggy" || has "zomato" || has "delivery" then strL "food"
  else if has "fuel" || has "petrol" || has "diesel" then strL "transport"
  else if has "uber" || has "ola" || has "taxi" then strL "transport"
  else if has "metro" || has "bus" || has "train" then strL "transport"
  else if has "parking" || has "toll" then strL "transport"
  else if has "amazon" || has "flipkart" || has "myntra" then strL "shopping"
  else if has "mall" || has "store" || has "shop" then strL "shopping"
  else if has "clothing" || has "fashion" then strL "shopping"
  else if has "electricity" || has "power" then strL "utilities"
  else if has "water" || has "gas" then strL "utilities"
  else if has "internet" || has "wifi" || has "broadband" then strL "utilities"
  else if has "mobile" || has "phone" || has "recharge" then strL "utilities"
  else if has "netflix" || has "prime" || has "hotstar" then strL "entertainment"
  else if has "movie" || has "cinema" || has "theatre" then strL "entertainment"
  else if has "game" || has "gaming" then strL "entertainment"
  else if has "atm" || has "cash" then strL "cash"
  else if has "transfer" || has "neft" || has "imps" then strL "transfer"
  else if has "payment" || has "bill" then strL "payment"
  else if has "rent" || has "emi" then strL "payment"
  else if has "medical" || has "hospital" || has "pharmacy" then strL "healthcare"
  else if has "doctor" || has "clinic" then strL "healthcare"
  else strL "other"

/-! The three parsing strategies. -/

def headerWordLists : List (List Str) :=
  [[strL "date", strL "description", strL "amount"],
   [strL "date", strL "narration", strL "amount"],
   [strL "date", strL "particulars", strL "amount"],
   [strL "date", strL "details", strL "amount"],
   [strL "transaction", strL "date", strL "amount"]]

def isHeaderLine (line : Str) : Bool :=
  headerWordLists.any fun ws => containsSeq (toLowerJS line) ws

def findHeaderLine (p : BankPattern) (lines : List Str) : Int :=
  match lines.findIdx? isHeaderLine with
  | some i => (i : Int)
  | none =>
    match lines.findIdx?
        (fun l => jsTest (matchDateAt p) l && jsTest matchAmountAt l) with
    | some i => (i : Int) - 1
    | none => -1

def tabularStart (p : BankPattern) (lines : List Str) : Nat :=
  let headerLine := findHeaderLine p lines
  if headerLine = -1 then 0 else (headerLine + 1).toNat

/-- All amount matches of a line, parsed (`amountMatches.map(a =>
parseFloat(a.replace(/,/g, '')))`). -/
def lineAmounts (line : Str) : List (Option ℚ) :=
  (jsMatchAll matchAmountAt line).map fun m => parseFloatQ (stripCommas m)

/-- The selection `amounts[amounts.length - 1] || amounts[0] || 0`. -/
def selectLineAmount (amounts : List (Option ℚ)) : ℚ :=
  jsOrQ ((amounts.getLast?).getD none) (jsOrQ ((amounts.head?).getD none) 0)

/-- Direction of the tabular/regex strategies. -/
def classifyType (amount : ℚ) (line : Str) : TxType :=
  let lower := toLowerJS line
  if amount < 0 then .debit
  else if isSubstring (strL "dr") lower || isSubstring (strL "debit") lower then
    .debit
  else if isSubstring (strL "cr") lower || isSubstring (strL "credit") lower then
    .credit
  else .credit

/-- The description computation of the tabular strategy (lines 287-304 of
the source): the token span between the date token and the amount token, or
everything after the date token, with amount matches stripped and a
100-character truncation with `...` marker. -/
def tabularDescription (p : BankPattern) (line : Str) : Str :=
  let parts := splitRuns isSpaceJS line
  let dateIndex := jsFindIdx (fun part => jsTest (matchDateAt p) part) parts
  let amountIndex := jsFindIdx (fun part => jsTest matchAmountAt part) parts
  let description :=
    if dateIndex ≠ -1 && amountIndex ≠ -1 && amountIndex > dateIndex + 1 then
      trimJS (joinSpace ((parts.drop (dateIndex + 1).toNat).take
        (amountIndex - dateIndex - 1).toNat))
    else if dateIndex ≠ -1 then
      trimJS (joinSpace (parts.drop (dateIndex + 1).toNat))
    else strL "Transaction"
  let description := trimJS (jsReplaceAll matchAmountAt [] description)
  if description.length > 100 then description.take 100 ++ strL "..."
  else description

/-- Body of the per-line loop of `parseTabularFormat` (the pushed record,
with its id assigned afterwards by `assignIds`). -/
def processTabularLine (p : BankPattern) (today : Str) (rawLine : Str) :
    Option ParsedTransaction :=
  let line := trimJS rawLine
  if line.isEmpty || line.length < 10 then none
  else
    match jsMatchAll (matchDateAt p) line, jsMatchAll matchAmountAt line with
    | d0 :: _, _ :: _ =>
      let date := standardizeDate d0 today
      let amount := selectLineAmount (lineAmounts line)
      let txType := classifyType amount line
      let description := tabularDescription p line
      if !description.isEmpty && amount ≠ 0 then
        some { id := [], date := date,
               description :=
                 if description.isEmpty then strL "Transaction" else description,
               amount := |amount|, txType := txType,
               category := categorizeTransaction description,
               isReconciled := false, confidence := 4/5 }
      else none
    | _, _ => none

def parseTabularFormat (p : BankPattern) (today : Str) (lines : List Str) :
    List ParsedTransaction :=
  assignIds tempId 0
    ((lines.drop (tabularStart p lines)).filterMap (processTabularLine p today))

def windows3 : List Str → List (Str × Str × Str)
  | a :: b :: c :: rest => (a, b, c) :: windows3 (b :: c :: rest)
  | _ => []

/-- Body of the 3-line-window loop of `parseLineByLineFormat`.  The amount
is `parseFloat(amountMatch[0].replace(/,/g, ''))`, which always parses for an
amount-pattern match (see `parseFloatQ_amountMatch_isSome`), so the `getD 0`
is never taken. -/
def processWindow (p : BankPattern) (today : Str) (w : Str × Str × Str) :
    Option ParsedTransaction :=
  let currentLine := trimJS w.1
  let nextLine := trimJS w.2.1
  let thirdLine := trimJS w.2.2
  let combinedLine := currentLine ++ ' ' :: (nextLine ++ ' ' :: thirdLine)
  match jsMatchAll (matchDateAt p) combinedLine,
      jsMatchAll matchAmountAt combinedLine with
  | d0 :: _, a0 :: _ =>
    let date := standardizeDate d0 today
    let amount := (parseFloatQ (stripCommas a0)).getD 0
    let description :=
      trimJS (jsReplaceAll matchAmountAt []
        (jsReplaceAll (matchDateAt p) [] currentLine))
    some { id := [], date := date,
           description :=
             if description.isEmpty then strL "Transaction" else description,
           amount := |amount|,
           txType := if amount < 0 then .debit else .credit,
           category := strL "other", isReconciled := false,
           confidence := 7/10 }
  | _, _ => none

def parseLineByLineFormat (p : BankPattern) (today : Str) (lines : List Str) :
    List ParsedTransaction :=
  assignIds tempId 0 ((windows3 lines).filterMap (processWindow p today))

/-- Body of the per-line loop of `parseRegexFormat`. -/
def processRegexLine (p : BankPattern) (today : Str) (line : Str) :
    Option ParsedTransaction :=
  match jsMatchAll (matchDateAt p) line, jsMatchAll matchAmountAt line with
  | d0 :: _, _ :: _ =>
    let date := standardizeDate d0 today
    let amount := selectLineAmount (lineAmounts line)
    let txType := classifyType amount line
    let description :=
      trimJS (jsReplaceAll matchAmountAt []
        (jsReplaceAll (matchDateAt p) [] line))
    let description :=
      trimJS (jsReplaceAll matchSpaceRunAt [' ']
        (jsReplaceAll matchNonWordAt [' '] description))
    if !description.isEmpty && amount ≠ 0 then
      some { id := [], date := date,
             description :=
               if description.isEmpty then strL "Transaction" else description,
             amount := |amount|, txType := txType,
             category := categorizeTransaction description,
             isReconciled := false, confidence := 3/5 }
    else none
  | _, _ => none

def parseRegexFormat (p : BankPattern) (today : Str) (text : Str) :
    List ParsedTransaction :=
  let lines :=
    (splitEach (fun c => c = '\n') text).filter fun l => !(trimJS l).isEmpty
  assignIds tempId 0 (lines.filterMap (processRegexLine p today))

/-! The recognition pipeline. -/

structure ParseResult where
  transactions : List ParsedTransaction
  errors : List ImportError
deriving Repr, DecidableEq

inductive BankKind
  | hdfc
  | icici
  | sbi
  | axis
  | generic
deriving Repr, DecidableEq

def bankPatternFor : BankKind → BankPattern
  | .hdfc => hdfcPattern
  | .icici => iciciPattern
  | .sbi => sbiPattern
  | .axis => axisPattern
  | .generic => genericPattern

/-- The source's `detectBankType`. -/
def detectBankType (text : Str) : BankKind :=
  let lowerText := toLowerJS text
  if isSubstring (strL "hdfc") lowerText then .hdfc
  else if isSubstring (strL "icici") lowerText then .icici
  else if isSubstring (strL "state bank") lowerText ||
      isSubstring (strL "sbi") lowerText then .sbi
  else if isSubstring (strL "axis") lowerText then .axis
  else .generic

/-- The strategy loop of `parseTransactionsFromText`: run each strategy in
order, break at the first returning a non-empty list (none of the embedded
strategies can throw, so the catch branch of the source loop is dead). -/
def runStrategies : List (Unit → List ParsedTransaction) →
    List ParsedTransaction
  | [] => []
  | s :: rest =>
    let result := s ()
    if result.length > 0 then result else runStrategies rest

def pdfId (now : Nat) (i : Nat) : Str :=
  strL "pdf-" ++ strL (toString now) ++ '-' :: strL (toString i)

def noValidTransactionsMsg : Str :=
  strL "No valid transactions could be extracted from the PDF text"

/-- The source's `parseTransactionsFromText`; `now` stands for `Date.now()`. -/
def parseTransactionsFromText (text : Str) (bankType : BankKind)
    (today : Str) (now : Nat) : ParseResult :=
  let patterns := bankPatternFor bankType
  let allLines :=
    (splitEach (fun c => c = '\n') text).filter fun l => (trimJS l).length > 0
  let transactions := runStrategies
    [fun _ => parseTabularFormat patterns today allLines,
     fun _ => parseLineByLineFormat patterns today allLines,
     fun _ => parseRegexFormat patterns today text]
  let validTransactions := assignIds (pdfId now) 0
    (transactions.filter fun tx => !tx.date.isEmpty && tx.amount ≠ 0)
  { transactions := validTransactions,
    errors :=
      if validTransactions.length = 0 then
        [⟨noValidTransactionsMsg, .warning, none⟩]
      else [] }

/-- The input file: declared MIME type, byte size, and the text that the
`pdfToText` extraction yields on it. -/
structure JSFile where
  fileType : Str
  size : Nat
  text : Str
deriving Repr, DecidableEq

inductive PromiseOutcome (α : Type)
  | resolved (result : α)
  | rejected (msg : Str)
deriving Repr, DecidableEq

def pdfToText (file : JSFile) : Str := file.text

def pdfFailMsg (m : String) : Str := strL "PDF parsing failed: " ++ strL m

def noTransactionsFoundMsg : Str :=
  strL "No transactions found in PDF. This might not be a bank statement or the format is not supported."

/-- The source's `parsePDFBankStatement`.  Every throw inside the function body is caught
by its own catch block, which resolves with an error report, so the returned
promise always resolves. -/
def parsePDFBankStatement (file : JSFile) (cfgBankType : BankKind)
    (today : Str) (now : Nat) : PromiseOutcome ParseResult :=
  .resolved (
    if file.fileType ≠ strL "application/pdf" then
      ⟨[], [⟨pdfFailMsg "Invalid PDF file provided", .error, none⟩]⟩
    else if file.size > 50 * 1024 * 1024 then
      ⟨[], [⟨pdfFailMsg "PDF file too large (max 50MB)", .error, none⟩]⟩
    else
      let text := pdfToText file
      if text.isEmpty || (trimJS text).length = 0 then
        ⟨[], [⟨pdfFailMsg "No text could be extracted from the PDF. The file might be scanned or corrupted.", .error, none⟩]⟩
      else
        let detectedBankType :=
          if cfgBankType = .generic then detectBankType text else cfgBankType
        let parsed := parseTransactionsFromText text detectedBankType today now
        ⟨parsed.transactions,
         parsed.errors ++
           (if parsed.transactions.length = 0 then
              [⟨noTransactionsFoundMsg, .error, none⟩]
            else [])⟩)

/-! The CSV path of the financial-data context. -/

/-- The `TRANSACTION_CATEGORIES` table of `constants/gamification` (entry order is the
object-literal insertion order, which `Object.entries` preserves). -/
def TRANSACTION_CATEGORIES : List (Str × List Str) :=
  [(strL "food",
    [strL "restaurant", strL "food", strL "cafe", strL "zomato", strL "swiggy",
     strL "dominos", strL "pizza", strL "mcdonald"]),
   (strL "transport",
    [strL "uber", strL "ola", strL "metro", strL "bus", strL "taxi",
     strL "petrol", strL "fuel", strL "parking"]),
   (strL "shopping",
    [strL "amazon", strL "flipkart", strL "mall", strL "store", strL "shop",
     strL "clothing", strL "electronics"]),
   (strL "utilities",
    [strL "electricity", strL "water", strL "gas", strL "internet",
     strL "mobile", strL "phone", strL "broadband"]),
   (strL "entertainment",
    [strL "movie", strL "cinema", strL "netflix", strL "spotify", strL "game",
     strL "theatre", strL "concert"]),
   (strL "healthcare",
    [strL "hospital", strL "clinic", strL "pharmacy", strL "medical",
     strL "doctor", strL "medicine"]),
   (strL "education",
    [strL "school", strL "college", strL "university", strL "course",
     strL "books", strL "fees"]),
   (strL "groceries",
    [strL "grocery", strL "supermarket", strL "vegetables", strL "milk",
     strL "bread", strL "provisions"])]

def capitalizeFirst : Str → Str
  | [] => []
  | c :: rest => c.toUpper :: rest

/-- The `categorizeParsedTransaction` classifier of the CSV path. -/
def categorizeParsedTransaction (description : Str) : Str :=
  let lowerDescription := toLowerJS description
  match TRANSACTION_CATEGORIES.find?
      (fun cat => cat.2.any fun keyword =>
        isSubstring keyword lowerDescription) with
  | some cat => capitalizeFirst cat.1
  | none => strL "Other"

/-- The `getField` helper of `parseCSVTransaction`: first field name whose (substring,
case-insensitive) header match has a truthy cell. -/
def getField (headers row : List Str) : List Str → Str
  | [] => []
  | name :: rest =>
    match headers.findIdx?
        (fun h => isSubstring (toLowerJS name) (toLowerJS h)) with
    | some index =>
      if !(row.getD index []).isEmpty then trimJS (row.getD index [])
      else getField headers row rest
    | none => getField headers row rest

/-- The source's `parseCSVTransaction`.  Here `dateConv` stands for
`d => new Date(d).toISOString()` (timezone-dependent) and `idStr` for the
`Date.now()`/`Math.random()`-seeded id. -/
def parseCSVTransaction (row headers : List Str) (dateConv : Str → Str)
    (idStr : Str) : ParsedTransaction :=
  let date := getField headers row
    [strL "date", strL "transaction date", strL "value date"]
  let description := getField headers row
    [strL "description", strL "particulars", strL "narration", strL "details"]
  let debitAmount := getField headers row
    [strL "debit", strL "withdrawal", strL "debit amount"]
  let creditAmount := getField headers row
    [strL "credit", strL "deposit", strL "credit amount"]
  let balance := getField headers row
    [strL "balance", strL "running balance", strL "available balance"]
  let reference := getField headers row
    [strL "reference", strL "ref no", strL "transaction id", strL "cheque no"]
  let isCredit := !creditAmount.isEmpty && jsGtZero (parseFloatQ creditAmount)
  let amount :=
    jsOrQ (parseFloatQ (if isCredit then creditAmount else debitAmount)) 0
  { id := idStr,
    date := dateConv date,
    description :=
      if description.isEmpty then strL "Unknown Transaction" else description,
    amount := |amount|,
    txType := if isCredit then .credit else .debit,
    category := categorizeParsedTransaction description,
    isReconciled := false,
    confidence := if !description.isEmpty && amount > 0 then 9/10 else 1/2,
    balance := if balance.isEmpty then none else some (parseFloatQ balance),
    reference := if reference.isEmpty then none else some reference }

def stripQuotes (cs : Str) : Str := cs.filter fun c => c ≠ '\x27' && c ≠ '"'

def csvRowErrMsg (rlen hlen : Nat) : Str :=
  strL "Row has " ++ strL (toString rlen) ++ strL " columns but expected " ++
    strL (toString hlen)

/-- The data-row loop of `parseCSVFile` (`i` is the index into the trimmed
non-empty line list; error rows are reported as `i + 1`).  The per-row
try/catch of the source only fires on `new Date(...).toISOString()` throwing,
which cannot happen with the total `dateConv` parameter. -/
def parseCSVRows (headers : List Str) (dateConv : Str → Str)
    (idGen : Nat → Str) : Nat → List Str → ParseResult
  | _, [] => ⟨[], []⟩
  | i, l :: rest =>
    let row := (splitEach (fun c => c = ',') l).map fun cell =>
      stripQuotes (trimJS cell)
    let next := parseCSVRows headers dateConv idGen (i + 1) rest
    if row.length ≠ headers.length then
      ⟨next.transactions,
       ⟨csvRowErrMsg row.length headers.length, .warning, some (i + 1)⟩ ::
         next.errors⟩
    else
      let transaction := parseCSVTransaction row headers dateConv (idGen i)
      if transaction.amount > 0 then
        ⟨transaction :: next.transactions, next.errors⟩
      else
        ⟨next.transactions,
         ⟨strL "Unable to parse transaction amount", .warning, some (i + 1)⟩ ::
           next.errors⟩

/-- The source's `parseCSVFile` (the body of the FileReader callback, on the decoded
text). -/
def parseCSVFile (csv : Str) (dateConv : Str → Str) (idGen : Nat → Str) :
    ParseResult :=
  let lines :=
    ((splitEach (fun c => c = '\n') csv).map trimJS).filter fun l => !l.isEmpty
  if lines.length < 2 then
    ⟨[], [⟨strL "CSV file must contain at least a header and one data row",
           .error, none⟩]⟩
  else
    let headers := (splitEach (fun c => c = ',') (lines.headD [])).map fun h =>
      stripQuotes (trimJS h)
    parseCSVRows headers dateConv idGen 1 (lines.drop 1)

/-! Structural lemmas about the matchers. -/

theorem findSome?_exists {α β : Type} {f : α → Option β} :
    ∀ {l : List α} {b : β}, l.findSome? f = some b → ∃ a, a ∈ l ∧ f a = some b := by
  intro l
  induction l with
  | nil => intro b h; simp [List.findSome?] at h
  | cons a as ih =>
    intro b h
    rw [List.findSome?_cons] at h
    cases hfa : f a with
    | some c =>
      rw [hfa] at h
      exact ⟨a, by simp, by rw [hfa]; exact h⟩
    | none =>
      rw [hfa] at h
      obtain ⟨x, hx, hfx⟩ := ih h
      exact ⟨x, by simp [hx], hfx⟩

theorem matchDayField_digits {dMin : Nat} {cs : Str} {dr : Str × Str}
    (h : dr ∈ matchDayField dMin cs) :
    dr.1 ≠ [] ∧ ∀ c ∈ dr.1, c.isDigit = true := by
  rcases cs with _ | ⟨c1, _ | ⟨c2, rest⟩⟩
  · simp [matchDayField] at h
  · simp [matchDayField] at h
    rcases h with ⟨⟨_, hd⟩, rfl⟩
    simpa using hd
  · simp [matchDayField] at h
    rcases h with ⟨⟨h1, h2⟩, rfl⟩ | ⟨⟨_, h1⟩, rfl⟩
    · refine ⟨by simp, ?_⟩
      intro c hc
      simp at hc
      rcases hc with rfl | rfl <;> assumption
    · simpa using h1

theorem matchSep_mem {seps : List Char} {cs : Str} {sr : Char × Str}
    (h : matchSep seps cs = some sr) : sr.1 ∈ seps := by
  rcases cs with _ | ⟨c, rest⟩
  · simp [matchSep] at h
  · unfold matchSep at h
    split at h
    · simp at h
      rcases h with ⟨h1, rfl⟩
      exact h1
    · simp at h

theorem matchYear_digits {cs : Str} {yr : Str × Str}
    (h : matchYear cs = some yr) :
    yr.1 ≠ [] ∧ ∀ c ∈ yr.1, c.isDigit = true := by
  rcases cs with _ | ⟨a, _ | ⟨b, _ | ⟨c, _ | ⟨d, rest⟩⟩⟩⟩ <;>
    simp [matchYear] at h
  rcases h with ⟨hb, rfl⟩
  refine ⟨by simp, ?_⟩
  intro x hx
  simp at hx
  rcases hx with rfl | rfl | rfl | rfl
  · exact hb.1.1.1
  · exact hb.1.1.2
  · exact hb.1.2
  · exact hb.2

theorem matchDateAt_parts {p : BankPattern} {cs m r : Str}
    (h : matchDateAt p cs = some (m, r)) :
    ∃ d1 s1 d2 s2 y, m = d1 ++ s1 :: (d2 ++ s2 :: y) ∧
      d1 ≠ [] ∧ (∀ c ∈ d1, c.isDigit = true) ∧
      d2 ≠ [] ∧ (∀ c ∈ d2, c.isDigit = true) ∧
      y ≠ [] ∧ (∀ c ∈ y, c.isDigit = true) ∧
      s1 ∈ p.seps ∧ s2 ∈ p.seps := by
  unfold matchDateAt at h
  obtain ⟨d1p, hd1mem, h1⟩ := findSome?_exists h
  rw [Option.bind_eq_some] at h1
  obtain ⟨s1p, hs1, h2⟩ := h1
  obtain ⟨d2p, hd2mem, h3⟩ := findSome?_exists h2
  rw [Option.bind_eq_some] at h3
  obtain ⟨s2p, hs2, h4⟩ := h3
  rw [Option.map_eq_some'] at h4
  obtain ⟨yp, hy, h5⟩ := h4
  obtain ⟨hm, _⟩ := Prod.mk.injEq .. ▸ h5
  obtain ⟨hd1ne, hd1d⟩ := matchDayField_digits hd1mem
  obtain ⟨hd2ne, hd2d⟩ := matchDayField_digits hd2mem
  obtain ⟨hyne, hyd⟩ := matchYear_digits hy
  exact ⟨d1p.1, s1p.1, d2p.1, s2p.1, yp.1, hm.symm, hd1ne, hd1d, hd2ne, hd2d,
    hyne, hyd, matchSep_mem hs1, matchSep_mem hs2⟩

theorem scanAux_mem {f : Str → Option (Str × Str)} :
    ∀ {fuel : Nat} {cs m : Str}, m ∈ scanAux f fuel cs →
      ∃ cs' r, f cs' = some (m, r) := by
  intro fuel
  induction fuel with
  | zero => intro cs m h; simp [scanAux] at h
  | succ n ih =>
    intro cs m h
    match cs with
    | [] => simp [scanAux] at h
    | c :: cs' =>
      rw [scanAux] at h
      cases hf : f (c :: cs') with
      | some pr =>
        rw [hf] at h
        rcases pr with ⟨mm, rest⟩
        simp at h
        rcases h with h | h
        · exact ⟨c :: cs', rest, by rw [hf, h]⟩
        · exact ih h
      | none =>
        rw [hf] at h
        exact ih h

theorem jsMatchAll_head_isMatch {f : Str → Option (Str × Str)} {cs m : Str}
    {rest : List Str} (h : jsMatchAll f cs = m :: rest) :
    ∃ cs' r, f cs' = some (m, r) :=
  scanAux_mem (f := f) (by rw [jsMatchAll] at h; rw [h]; simp)

/-! `splitEach` on a date match yields exactly three parts, so
`standardizeDate` never takes its today-fallback on a pattern match. -/

theorem splitEach_cons (pred : Char → Bool) (c : Char) (cs : Str) :
    splitEach pred (c :: cs) =
      if pred c then [] :: splitEach pred cs
      else
        match splitEach pred cs with
        | t :: ts => (c :: t) :: ts
        | [] => [[c]] := rfl

theorem splitEach_all_noSep (pred : Char → Bool) (cs : Str)
    (h : ∀ c ∈ cs, pred c = false) : splitEach pred cs = [cs] := by
  induction cs with
  | nil => rfl
  | cons c cs ih =>
    have hc : pred c = false := h c (by simp)
    have ih' := ih fun x hx => h x (by simp [hx])
    rw [splitEach_cons, ih']
    simp [hc]

theorem splitEach_sep_cons (pred : Char → Bool) (s : Char)
    (hs : pred s = true) (rest : Str) :
    splitEach pred (s :: rest) = [] :: splitEach pred rest := by
  rw [splitEach_cons]
  simp [hs]

theorem splitEach_noSep_head (pred : Char → Bool) (d : Str)
    (hd : ∀ c ∈ d, pred c = false) (s : Char) (hs : pred s = true)
    (rest : Str) :
    splitEach pred (d ++ s :: rest) = d :: splitEach pred rest := by
  induction d with
  | nil => simpa using splitEach_sep_cons pred s hs rest
  | cons c cs ih =>
    have hc : pred c = false := hd c (by simp)
    have ih' := ih fun x hx => hd x (by simp [hx])
    rw [List.cons_append, splitEach_cons, ih']
    simp [hc]

theorem digit_not_dateSep {c : Char} (h : c.isDigit = true) :
    ((c = '/' || c = '-') : Bool) = false := by
  by_contra hne
  rw [Bool.not_eq_false, Bool.or_eq_true] at hne
  rcases hne with hne | hne <;>
  · rw [decide_eq_true_iff] at hne
    subst hne
    simp at h

theorem standardizeDate_match_indep {p : BankPattern}
    (hp : ∀ c ∈ p.seps, c = '/' ∨ c = '-') {cs m r : Str}
    (h : matchDateAt p cs = some (m, r)) (t₁ t₂ : Str) :
    standardizeDate m t₁ = standardizeDate m t₂ := by
  obtain ⟨d1, s1, d2, s2, y, hm, h1ne, h1d, h2ne, h2d, hyne, hyd, hs1, hs2⟩ :=
    matchDateAt_parts h
  subst hm
  have hsep1 : ((s1 = '/' || s1 = '-') : Bool) = true := by
    rcases hp s1 hs1 with rfl | rfl <;> simp
  have hsep2 : ((s2 = '/' || s2 = '-') : Bool) = true := by
    rcases hp s2 hs2 with rfl | rfl <;> simp
  have hkeep : ∀ c ∈ d1 ++ s1 :: (d2 ++ s2 :: y),
      (c.isDigit || c = '/' || c = '-') = true := by
    intro c hc
    simp only [List.mem_append, List.mem_cons] at hc
    rcases hc with hc | rfl | hc | rfl | hc
    · simp [h1d c hc]
    · simpa [Bool.or_assoc] using Or.inr hsep1
    · simp [h2d c hc]
    · simpa [Bool.or_assoc] using Or.inr hsep2
    · simp [hyd c hc]
  have hparts :
      splitEach (fun c => c = '/' || c = '-') (d1 ++ s1 :: (d2 ++ s2 :: y)) =
        [d1, d2, y] := by
    rw [splitEach_noSep_head _ d1 (fun c hc => digit_not_dateSep (h1d c hc))
      s1 hsep1, splitEach_noSep_head _ d2
      (fun c hc => digit_not_dateSep (h2d c hc)) s2 hsep2,
      splitEach_all_noSep _ y (fun c hc => digit_not_dateSep (hyd c hc))]
  unfold standardizeDate
  simp only [List.filter_eq_self.mpr hkeep, hparts]

/-! Today-independence of the strategies: the `today` argument can only reach
the output through `standardizeDate`, whose input is always a date-pattern
match, and such a match always splits into exactly three numeric parts. -/

theorem processTabularLine_today_indep {p : BankPattern}
    (hp : ∀ c ∈ p.seps, c = '/' ∨ c = '-') (t₁ t₂ : Str) (rawLine : Str) :
    processTabularLine p t₁ rawLine = processTabularLine p t₂ rawLine := by
  simp only [processTabularLine]
  split
  · rfl
  · split
    · rename_i d0 dtail a0 atail heqd heqa
      obtain ⟨cs', r, hm⟩ := jsMatchAll_head_isMatch heqd
      rw [standardizeDate_match_indep hp hm t₁ t₂]
    · rfl

theorem processWindow_today_indep {p : BankPattern}
    (hp : ∀ c ∈ p.seps, c = '/' ∨ c = '-') (t₁ t₂ : Str)
    (w : Str × Str × Str) :
    processWindow p t₁ w = processWindow p t₂ w := by
  simp only [processWindow]
  split
  · rename_i d0 dtail a0 atail heqd heqa
    obtain ⟨cs', r, hm⟩ := jsMatchAll_head_isMatch heqd
    rw [standardizeDate_match_indep hp hm t₁ t₂]
  · rfl

theorem processRegexLine_today_indep {p : BankPattern}
    (hp : ∀ c ∈ p.seps, c = '/' ∨ c = '-') (t₁ t₂ : Str) (line : Str) :
    processRegexLine p t₁ line = processRegexLine p t₂ line := by
  simp only [processRegexLine]
  split
  · rename_i d0 dtail a0 atail heqd heqa
    obtain ⟨cs', r, hm⟩ := jsMatchAll_head_isMatch heqd
    rw [standardizeDate_match_indep hp hm t₁ t₂]
  · rfl

theorem parseTabularFormat_today_indep {p : BankPattern}
    (hp : ∀ c ∈ p.seps, c = '/' ∨ c = '-') (t₁ t₂ : Str) (lines : List Str) :
    parseTabularFormat p t₁ lines = parseTabularFormat p t₂ lines := by
  unfold parseTabularFormat
  rw [funext fun l => processTabularLine_today_indep hp t₁ t₂ l]

theorem parseLineByLineFormat_today_indep {p : BankPattern}
    (hp : ∀ c ∈ p.seps, c = '/' ∨ c = '-') (t₁ t₂ : Str) (lines : List Str) :
    parseLineByLineFormat p t₁ lines = parseLineByLineFormat p t₂ lines := by
  unfold parseLineByLineFormat
  rw [funext fun w => processWindow_today_indep hp t₁ t₂ w]

theorem parseRegexFormat_today_indep {p : BankPattern}
    (hp : ∀ c ∈ p.seps, c = '/' ∨ c = '-') (t₁ t₂ : Str) (text : Str) :
    parseRegexFormat p t₁ text = parseRegexFormat p t₂ text := by
  unfold parseRegexFormat
  rw [funext fun l => processRegexLine_today_indep hp t₁ t₂ l]

theorem bankPatternFor_seps (bank : BankKind) :
    ∀ c ∈ (bankPatternFor bank).seps, c = '/' ∨ c = '-' := by
  cases bank <;> decide

/-- Claim C1: no strategy ever emits a transaction with a guessed
(today-fallback) date — the output of every strategy, and of the whole
recognition pipeline, is independent of the current date, because a
date-pattern match always resolves to exactly three numeric components; the
fallback branch of the shared helper `standardizeDate` (last conjunct) is
unreachable from pattern matches, in the tabular strategy as much as in the
line-grouped and regex ones. -/
theorem claim_C1 (bank : BankKind) (t₁ t₂ : Str) (lines : List Str)
    (text : Str) (now : Nat) :
    parseTabularFormat (bankPatternFor bank) t₁ lines =
      parseTabularFormat (bankPatternFor bank) t₂ lines ∧
    parseLineByLineFormat (bankPatternFor bank) t₁ lines =
      parseLineByLineFormat (bankPatternFor bank) t₂ lines ∧
    parseRegexFormat (bankPatternFor bank) t₁ text =
      parseRegexFormat (bankPatternFor bank) t₂ text ∧
    parseTransactionsFromText text bank t₁ now =
      parseTransactionsFromText text bank t₂ now ∧
    (∀ t : Str, standardizeDate (strL "x") t = t) := by
  have hp := bankPatternFor_seps bank
  refine ⟨parseTabularFormat_today_indep hp t₁ t₂ lines,
    parseLineByLineFormat_today_indep hp t₁ t₂ lines,
    parseRegexFormat_today_indep hp t₁ t₂ text, ?_, fun t => rfl⟩
  unfold parseTransactionsFromText
  simp only [parseTabularFormat_today_indep hp t₁ t₂,
    parseLineByLineFormat_today_indep hp t₁ t₂,
    parseRegexFormat_today_indep hp t₁ t₂]

/-! Claims C2 and C9: strategy selection and idempotence. -/

theorem runStrategies_three (r1 r2 r3 : List ParsedTransaction) :
    runStrategies [fun _ => r1, fun _ => r2, fun _ => r3] =
      (if r1 ≠ [] then r1 else if r2 ≠ [] then r2 else r3) := by
  simp only [runStrategies]
  rcases r1 with _ | ⟨a, l⟩
  · rcases r2 with _ | ⟨b, m⟩ <;> simp
  · simp

/-- Claim C2: the engine tries tabular, line-grouped, regex in that order and
the import output is exactly the (validated, re-id-ed) candidate list of the
first strategy producing at least one candidate; candidates of different
strategies are never merged. -/
theorem claim_C2 (text : Str) (bank : BankKind) (today : Str) (now : Nat) :
    (parseTransactionsFromText text bank today now).transactions =
      (let p := bankPatternFor bank
       let lines := (splitEach (fun c => c = '\n') text).filter
         fun l => (trimJS l).length > 0
       let r1 := parseTabularFormat p today lines
       let r2 := parseLineByLineFormat p today lines
       let r3 := parseRegexFormat p today text
       assignIds (pdfId now) 0
         ((if r1 ≠ [] then r1 else if r2 ≠ [] then r2 else r3).filter
           fun tx => !tx.date.isEmpty && tx.amount ≠ 0)) := by
  unfold parseTransactionsFromText
  simp only [runStrategies_three]

theorem assignIds_map_indep {β : Type} (f : ParsedTransaction → β)
    (hf : ∀ tx s, f { tx with id := s } = f tx) (mk : Nat → Str) :
    ∀ (i : Nat) (l : List ParsedTransaction),
      (assignIds mk i l).map f = l.map f := by
  intro i l
  induction l generalizing i with
  | nil => rfl
  | cons a rest ih => simp [assignIds, hf, ih]

theorem parseCSVTransaction_proj_indep (row headers : List Str)
    (dateConv : Str → Str) (id₁ id₂ : Str) :
    (parseCSVTransaction row headers dateConv id₁).amount =
      (parseCSVTransaction row headers dateConv id₂).amount ∧
    ((parseCSVTransaction row headers dateConv id₁).date,
     (parseCSVTransaction row headers dateConv id₁).description,
     (parseCSVTransaction row headers dateConv id₁).amount,
     (parseCSVTransaction row headers dateConv id₁).txType,
     (parseCSVTransaction row headers dateConv id₁).category) =
    ((parseCSVTransaction row headers dateConv id₂).date,
     (parseCSVTransaction row headers dateConv id₂).description,
     (parseCSVTransaction row headers dateConv id₂).amount,
     (parseCSVTransaction row headers dateConv id₂).txType,
     (parseCSVTransaction row headers dateConv id₂).category) :=
  ⟨rfl, rfl⟩

theorem parseCSVRows_idGen_indep (headers : List Str) (dateConv : Str → Str)
    (idGen₁ idGen₂ : Nat → Str) :
    ∀ (i : Nat) (rows : List Str),
      (parseCSVRows headers dateConv idGen₁ i rows).transactions.map
        (fun tx =>
          (tx.date, tx.description, tx.amount, tx.txType, tx.category)) =
      (parseCSVRows headers dateConv idGen₂ i rows).transactions.map
        (fun tx =>
          (tx.date, tx.description, tx.amount, tx.txType, tx.category)) ∧
      (parseCSVRows headers dateConv idGen₁ i rows).errors =
        (parseCSVRows headers dateConv idGen₂ i rows).errors := by
  intro i rows
  induction rows generalizing i with
  | nil => exact ⟨rfl, rfl⟩
  | cons l rest ih =>
    obtain ⟨ih1, ih2⟩ := ih (i + 1)
    simp only [parseCSVRows]
    rw [(parseCSVTransaction_proj_indep
      ((splitEach (fun c => c = ',') l).map fun cell =>
        stripQuotes (trimJS cell)) headers dateConv (idGen₁ i)
      (idGen₂ i)).1]
    split
    · exact ⟨ih1, by rw [ih2]⟩
    · split
      · refine ⟨?_, ih2⟩
        simp only [List.map_cons, ih1]
        rw [(parseCSVTransaction_proj_indep
          ((splitEach (fun c => c = ',') l).map fun cell =>
            stripQuotes (trimJS cell)) headers dateConv (idGen₁ i)
          (idGen₂ i)).2]
      · exact ⟨ih1, by rw [ih2]⟩

/-- Claim C9: running the import twice on byte-identical content on the same
day yields the same list (hence the same multiset) of
(date, description, amount, direction, category) tuples, on the PDF
recognition pipeline as well as on the CSV path; only the
`Date.now()`/`Math.random()`-seeded ids can differ between the two runs. -/
theorem claim_C9 (text : Str) (bank : BankKind) (today : Str) (n₁ n₂ : Nat)
    (csv : Str) (dateConv : Str → Str) (idGen₁ idGen₂ : Nat → Str) :
    (parseTransactionsFromText text bank today n₁).transactions.map
      (fun tx => (tx.date, tx.description, tx.amount, tx.txType, tx.category)) =
    (parseTransactionsFromText text bank today n₂).transactions.map
      (fun tx =>
        (tx.date, tx.description, tx.amount, tx.txType, tx.category)) ∧
    (parseCSVFile csv dateConv idGen₁).transactions.map
      (fun tx => (tx.date, tx.description, tx.amount, tx.txType, tx.category)) =
    (parseCSVFile csv dateConv idGen₂).transactions.map
      (fun tx =>
        (tx.date, tx.description, tx.amount, tx.txType, tx.category)) := by
  constructor
  · unfold parseTransactionsFromText
    simp only [assignIds_map_indep
      (fun tx => (tx.date, tx.description, tx.amount, tx.txType, tx.category))
      (fun tx s => rfl)]
  · simp only [parseCSVFile]
    split
    · rfl
    · exact (parseCSVRows_idGen_indep _ dateConv idGen₁ idGen₂ 1 _).1

/-! Claim C3: zero surviving transactions. -/

theorem parseTransactionsFromText_empty_errors (text : Str) (bank : BankKind)
    (today : Str) (now : Nat)
    (h : (parseTransactionsFromText text bank today now).transactions = []) :
    (parseTransactionsFromText text bank today now).errors =
      [⟨noValidTransactionsMsg, .warning, none⟩] := by
  unfold parseTransactionsFromText at h ⊢
  simp only at h
  simp only [h]
  simp

/-- Claim C3 counterexample: on a PDF whose text yields no transactions, the
pipeline's error list is a warning **followed by an error-severity entry**
(`parsePDFBankStatement` lines 137-142 escalate), contradicting the claim
that exactly one warning-severity ImportError is reported with no
error-severity escalation. -/
theorem claim_C3_counterexample :
    parsePDFBankStatement ⟨strL "application/pdf", 100, strL "hello world text"⟩
        .generic (strL "2025-10-11") 0 =
      .resolved ⟨[], [⟨noValidTransactionsMsg, .warning, none⟩,
        ⟨noTransactionsFoundMsg, .error, none⟩]⟩ := by
  decide

/-- Claim C3 (amended): when all strategies together yield zero surviving
transactions, `parseTransactionsFromText` returns an empty list with exactly
one warning-severity ImportError, but the outer `parsePDFBankStatement`
additionally appends one error-severity ImportError ("No transactions found
in PDF..."), so the overall report carries one warning and one error. -/
theorem claim_C3_amended :
    (∀ (text : Str) (bank : BankKind) (today : Str) (now : Nat),
      (parseTransactionsFromText text bank today now).transactions = [] →
      (parseTransactionsFromText text bank today now).errors =
        [⟨noValidTransactionsMsg, .warning, none⟩]) ∧
    (∀ (file : JSFile) (today : Str) (now : Nat),
      file.fileType = strL "application/pdf" →
      file.size ≤ 50 * 1024 * 1024 →
      (trimJS file.text).length ≠ 0 →
      (parseTransactionsFromText file.text
        (detectBankType file.text) today now).transactions = [] →
      parsePDFBankStatement file .generic today now =
        .resolved ⟨[], [⟨noValidTransactionsMsg, .warning, none⟩,
          ⟨noTransactionsFoundMsg, .error, none⟩]⟩) := by
  constructor
  · exact parseTransactionsFromText_empty_errors
  · intro file today now htype hsize htext hempty
    have herr := parseTransactionsFromText_empty_errors file.text
      (detectBankType file.text) today now hempty
    have htextne : file.text.isEmpty = false := by
      rcases hne : file.text with _ | ⟨c, cs⟩
      · rw [hne] at htext
        simp [trimJS] at htext
      · rfl
    unfold parsePDFBankStatement pdfToText
    rw [if_neg (by simp [htype]), if_neg (by omega)]
    rw [if_neg (by simp [htextne, htext])]
    simp [hempty, herr]

/-- Witness for claim C3 (amended) at a concrete no-transaction input. -/
theorem claim_C3_amended_witness :
    (parseTransactionsFromText (strL "hello world text") .generic
      (strL "2025-10-11") 0).errors =
      [⟨noValidTransactionsMsg, .warning, none⟩] ∧
    parsePDFBankStatement ⟨strL "application/pdf", 100, strL "hello world text"⟩
        .generic (strL "2025-10-11") 0 =
      .resolved ⟨[], [⟨noValidTransactionsMsg, .warning, none⟩,
        ⟨noTransactionsFoundMsg, .error, none⟩]⟩ :=
  ⟨claim_C3_amended.1 _ _ _ _ (by decide),
   claim_C3_amended.2 ⟨strL "application/pdf", 100, strL "hello world text"⟩
     (strL "2025-10-11") 0 (by decide) (by decide) (by decide) (by decide)⟩

/-! Claim C4: boundary behaviour of `parsePDFBankStatement`. -/

/-- Claim C4 counterexample: for a non-PDF file the returned promise does
NOT reject — the function's own catch block converts the internal throw into
a resolved result carrying an error-severity ImportError. -/
theorem claim_C4_counterexample :
    parsePDFBankStatement ⟨strL "text/plain", 10, strL "whatever"⟩ .generic
        (strL "2025-10-11") 0 =
      .resolved ⟨[], [⟨pdfFailMsg "Invalid PDF file provided",
        .error, none⟩]⟩ := by
  decide

/-- Claim C4 (amended): `parsePDFBankStatement` always resolves, never
rejects; for an invalid file type, an oversize file, or empty/whitespace-only
extracted text it resolves with an empty transaction list and a single
error-severity ImportError whose message starts with "PDF parsing failed:";
for an oversize file this happens before any extraction attempt — the result
does not depend on the file's text. -/
theorem claim_C4_amended :
    (∀ (file : JSFile) (bank : BankKind) (today : Str) (now : Nat), ∃ r,
      parsePDFBankStatement file bank today now = .resolved r) ∧
    (∀ (file : JSFile) (bank : BankKind) (today : Str) (now : Nat),
      file.fileType ≠ strL "application/pdf" →
      parsePDFBankStatement file bank today now =
        .resolved ⟨[], [⟨pdfFailMsg "Invalid PDF file provided",
          .error, none⟩]⟩) ∧
    (∀ (size : Nat) (text₁ text₂ : Str) (bank : BankKind) (today : Str)
        (now : Nat), size > 50 * 1024 * 1024 →
      parsePDFBankStatement ⟨strL "application/pdf", size, text₁⟩ bank today
          now =
        parsePDFBankStatement ⟨strL "application/pdf", size, text₂⟩ bank today
          now ∧
      parsePDFBankStatement ⟨strL "application/pdf", size, text₁⟩ bank today
          now =
        .resolved ⟨[], [⟨pdfFailMsg "PDF file too large (max 50MB)",
          .error, none⟩]⟩) ∧
    (∀ (file : JSFile) (bank : BankKind) (today : Str) (now : Nat),
      file.fileType = strL "application/pdf" →
      file.size ≤ 50 * 1024 * 1024 → (trimJS file.text).length = 0 →
      parsePDFBankStatement file bank today now =
        .resolved ⟨[], [⟨pdfFailMsg "No text could be extracted from the PDF. The file might be scanned or corrupted.",
          .error, none⟩]⟩) := by
  refine ⟨fun file bank today now => ⟨_, rfl⟩, ?_, ?_, ?_⟩
  · intro file bank today now h
    unfold parsePDFBankStatement
    rw [if_pos h]
  · intro size text₁ text₂ bank today now h
    have key : ∀ text : Str,
        parsePDFBankStatement ⟨strL "application/pdf", size, text⟩ bank today
            now =
          .resolved ⟨[], [⟨pdfFailMsg "PDF file too large (max 50MB)",
            .error, none⟩]⟩ := by
      intro text
      unfold parsePDFBankStatement
      rw [if_neg (by simp), if_pos h]
    exact ⟨(key text₁).trans (key text₂).symm, key text₁⟩
  · intro file bank today now htype hsize htext
    unfold parsePDFBankStatement pdfToText
    rw [if_neg (by simp [htype]), if_neg (by omega),
      if_pos (by simp [htext])]

/-- Witness for claim C4 (amended) at concrete boundary inputs. -/
theorem claim_C4_amended_witness :
    parsePDFBankStatement ⟨strL "text/csv", 5, strL "x"⟩ .generic (strL "t")
        1 =
      .resolved ⟨[], [⟨pdfFailMsg "Invalid PDF file provided",
        .error, none⟩]⟩ ∧
    parsePDFBankStatement ⟨strL "application/pdf", 52428801, strL "a"⟩
        .generic (strL "t") 1 =
      .resolved ⟨[], [⟨pdfFailMsg "PDF file too large (max 50MB)",
        .error, none⟩]⟩ ∧
    parsePDFBankStatement ⟨strL "application/pdf", 7, strL "  "⟩ .generic
        (strL "t") 1 =
      .resolved ⟨[], [⟨pdfFailMsg "No text could be extracted from the PDF. The file might be scanned or corrupted.",
        .error, none⟩]⟩ :=
  ⟨claim_C4_amended.2.1 ⟨strL "text/csv", 5, strL "x"⟩ .generic (strL "t") 1
     (by decide),
   (claim_C4_amended.2.2.1 52428801 (strL "a") (strL "b") .generic (strL "t")
     1 (by norm_num)).2,
   claim_C4_amended.2.2.2 ⟨strL "application/pdf", 7, strL "  "⟩ .generic
     (strL "t") 1 (by decide) (by decide) (by decide)⟩

/-! Field characterisations of the per-line processors. -/

theorem mem_assignIds {mk : Nat → Str} :
    ∀ {i : Nat} {l : List ParsedTransaction} {tx : ParsedTransaction},
      tx ∈ assignIds mk i l → ∃ j a, a ∈ l ∧ tx = { a with id := mk j } := by
  intro i l
  induction l generalizing i with
  | nil => intro tx h; simp [assignIds] at h
  | cons a rest ih =>
    intro tx h
    rw [assignIds] at h
    rcases List.mem_cons.mp h with h | h
    · exact ⟨i, a, by simp, h⟩
    · obtain ⟨j, b, hb, he⟩ := ih h
      exact ⟨j, b, by simp [hb], he⟩

theorem truncDesc_le (d : Str) :
    ((if d.length > 100 then d.take 100 ++ strL "..." else d) : Str).length ≤
      103 := by
  split
  · simp [strL]
  · omega

theorem tabularDescription_le (p : BankPattern) (line : Str) :
    (tabularDescription p line).length ≤ 103 := by
  unfold tabularDescription
  exact truncDesc_le _

theorem processTabularLine_fields {p : BankPattern} {t l : Str}
    {tx : ParsedTransaction} (h : processTabularLine p t l = some tx) :
    tx.amount = |selectLineAmount (lineAmounts (trimJS l))| ∧
    selectLineAmount (lineAmounts (trimJS l)) ≠ 0 ∧
    tx.description.length ≤ 103 := by
  simp only [processTabularLine] at h
  split at h
  · simp at h
  · split at h
    · split at h
      · rename_i hguard
        injection h with h
        subst h
        simp only [Bool.and_eq_true, Bool.not_eq_true', List.isEmpty_eq_false,
          decide_eq_true_eq] at hguard
        refine ⟨rfl, hguard.2, ?_⟩
        split
        · simp [strL]
        · exact tabularDescription_le p (trimJS l)
      · simp at h
    · simp at h

theorem processWindow_fields {p : BankPattern} {t : Str} {w : Str × Str × Str}
    {tx : ParsedTransaction} (h : processWindow p t w = some tx) :
    0 ≤ tx.amount ∧ tx.category = strL "other" := by
  simp only [processWindow] at h
  split at h
  · injection h with h
    subst h
    exact ⟨abs_nonneg _, rfl⟩
  · simp at h

theorem processRegexLine_amount {p : BankPattern} {t line : Str}
    {tx : ParsedTransaction} (h : processRegexLine p t line = some tx) :
    0 ≤ tx.amount := by
  simp only [processRegexLine] at h
  split at h
  · split at h
    · injection h with h
      subst h
      exact abs_nonneg _
    · simp at h
  · simp at h

/-! Claims C5, C6, C7, C10, C8. -/

/-- Claim C5 counterexample: on a line whose last amount-pattern occurrence
parses to 0, the emitted amount is NOT that last occurrence — the selection
`amounts[amounts.length-1] || amounts[0] || 0` falls through on the falsy
last element to the first occurrence (here 1, parsed from the date's "01"). -/
theorem claim_C5_counterexample :
    (parseTabularFormat genericPattern (strL "2025-10-11")
      [strL "01/01/2024 PAYMENT FOO 500.00 0"]).map (fun tx => tx.amount) =
      [1] ∧
    ((lineAmounts (trimJS
      (strL "01/01/2024 PAYMENT FOO 500.00 0"))).getLast?).getD none =
      some 0 ∧
    (1 : ℚ) ≠ 0 :=
  ⟨by with_unfolding_all decide, by with_unfolding_all decide, by norm_num⟩

/-- Claim C5 (amended): in the tabular strategy the emitted amount is the
absolute value of the last amount-pattern occurrence on the line whenever
that occurrence parses to a nonzero value; when it parses to zero, the first
occurrence is used instead (and the line is dropped when that is also
zero). -/
theorem claim_C5_amended (p : BankPattern) (today : Str) (line : Str)
    (tx : ParsedTransaction) (h : processTabularLine p today line = some tx) :
    (∀ q : ℚ, ((lineAmounts (trimJS line)).getLast?).getD none = some q →
      q ≠ 0 → tx.amount = |q|) ∧
    (((lineAmounts (trimJS line)).getLast?).getD none = some 0 →
      ∃ q : ℚ, ((lineAmounts (trimJS line)).head?).getD none = some q ∧
        q ≠ 0 ∧ tx.amount = |q|) := by
  obtain ⟨hamt, hne, _⟩ := processTabularLine_fields h
  constructor
  · intro q hq hq0
    rw [hamt]
    unfold selectLineAmount
    rw [hq]
    simp [jsOrQ, hq0]
  · intro hq
    have hsel : selectLineAmount (lineAmounts (trimJS line)) =
        jsOrQ (((lineAmounts (trimJS line)).head?).getD none) 0 := by
      unfold selectLineAmount
      rw [hq]
      simp [jsOrQ]
    rcases hhead : ((lineAmounts (trimJS line)).head?).getD none with _ | q
    · exact absurd (by rw [hsel, hhead]; rfl) hne
    · by_cases hq0 : q = 0
      · refine absurd ?_ hne
        rw [hsel, hhead, hq0]
        simp [jsOrQ]
      · exact ⟨q, rfl, hq0, by rw [hamt, hsel, hhead]; simp [jsOrQ, hq0]⟩

/-- Witness for claim C5 (amended): a line with last amount 750 ≠ 0. -/
theorem claim_C5_amended_witness :
    processTabularLine genericPattern (strL "2025-10-11")
        (strL "01/01/2024 SHOP PURCHASE 750.00") =
      some ((processTabularLine genericPattern (strL "2025-10-11")
        (strL "01/01/2024 SHOP PURCHASE 750.00")).getD
          ⟨[], [], [], 0, .credit, [], false, 0, none, none⟩) ∧
    ((processTabularLine genericPattern (strL "2025-10-11")
        (strL "01/01/2024 SHOP PURCHASE 750.00")).getD
          ⟨[], [], [], 0, .credit, [], false, 0, none, none⟩).amount =
      |(750 : ℚ)| :=
  ⟨by with_unfolding_all decide,
   (claim_C5_amended genericPattern (strL "2025-10-11")
     (strL "01/01/2024 SHOP PURCHASE 750.00") _
     (by with_unfolding_all decide)).1 750 (by with_unfolding_all decide)
     (by norm_num)⟩

/-- Claim C6: every transaction produced by any of the three PDF strategies
or by the CSV row parser has a non-negative amount; the credit/debit
direction lives in the separate type field, never in the amount's sign. -/
theorem claim_C6 (p : BankPattern) (today : Str) (lines : List Str)
    (text : Str) (row headers : List Str) (dateConv : Str → Str) (idStr : Str)
    (tx : ParsedTransaction)
    (h : tx ∈ parseTabularFormat p today lines ∨
         tx ∈ parseLineByLineFormat p today lines ∨
         tx ∈ parseRegexFormat p today text ∨
         tx = parseCSVTransaction row headers dateConv idStr) :
    0 ≤ tx.amount := by
  rcases h with h | h | h | h
  · rw [parseTabularFormat] at h
    obtain ⟨j, a, ha, rfl⟩ := mem_assignIds h
    obtain ⟨line, _, hline⟩ := List.mem_filterMap.mp ha
    show 0 ≤ a.amount
    rw [(processTabularLine_fields hline).1]
    exact abs_nonneg _
  · rw [parseLineByLineFormat] at h
    obtain ⟨j, a, ha, rfl⟩ := mem_assignIds h
    obtain ⟨w, _, hw⟩ := List.mem_filterMap.mp ha
    show 0 ≤ a.amount
    exact (processWindow_fields hw).1
  · rw [parseRegexFormat] at h
    obtain ⟨j, a, ha, rfl⟩ := mem_assignIds h
    obtain ⟨line, _, hline⟩ := List.mem_filterMap.mp ha
    show 0 ≤ a.amount
    exact processRegexLine_amount hline
  · subst h
    simp only [parseCSVTransaction]
    exact abs_nonneg _

/-- Witness for claim C6 at a concrete CSV row. -/
theorem claim_C6_witness :
    0 ≤ (parseCSVTransaction [strL "01/04/2024", strL "500"]
      [strL "Date", strL "Debit"] (fun _ => []) []).amount :=
  claim_C6 genericPattern [] [] [] [strL "01/04/2024", strL "500"]
    [strL "Date", strL "Debit"] (fun _ => []) []
    (parseCSVTransaction [strL "01/04/2024", strL "500"]
      [strL "Date", strL "Debit"] (fun _ => []) [])
    (Or.inr (Or.inr (Or.inr rfl)))

/-- Claim C7 counterexample: the tabular strategy truncates an over-long
description to 100 characters and then appends a three-character ellipsis,
emitting a 103-character description — longer than the claimed bound. -/
theorem claim_C7_counterexample :
    (parseTabularFormat genericPattern (strL "2025-10-11")
      [strL "01/01/2024 " ++ List.replicate 110 'A' ++ strL " 500.00"]).map
      (fun tx => tx.description.length) = [103] ∧ ¬(103 ≤ 100) :=
  ⟨by with_unfolding_all decide, by omega⟩

/-- Claim C7 (amended): descriptions emitted by the tabular strategy are at
most 103 characters long (at most 100 plus the 3-character "..." marker);
the line-grouped and regex strategies apply no truncation at all. -/
theorem claim_C7_amended (p : BankPattern) (today : Str) (lines : List Str)
    (tx : ParsedTransaction) (h : tx ∈ parseTabularFormat p today lines) :
    tx.description.length ≤ 103 := by
  rw [parseTabularFormat] at h
  obtain ⟨j, a, ha, rfl⟩ := mem_assignIds h
  obtain ⟨line, _, hline⟩ := List.mem_filterMap.mp ha
  show a.description.length ≤ 103
  exact (processTabularLine_fields hline).2.2

/-- Witness for claim C7 (amended) at a concrete tabular emission. -/
theorem claim_C7_amended_witness :
    ((parseTabularFormat genericPattern (strL "2025-10-11")
        [strL "01/01/2024 COFFEE SHOP 250.00"]).headD
      ⟨[], [], [], 0, .credit, [], false, 0, none, none⟩).description.length ≤
      103 :=
  claim_C7_amended genericPattern (strL "2025-10-11")
    [strL "01/01/2024 COFFEE SHOP 250.00"] _ (by with_unfolding_all decide)

/-- Claim C10: every transaction emitted by the line-grouped (3-line-window)
strategy carries the literal category "other"; the keyword classifier is
never consulted on this path. -/
theorem claim_C10 (p : BankPattern) (today : Str) (lines : List Str)
    (tx : ParsedTransaction) (h : tx ∈ parseLineByLineFormat p today lines) :
    tx.category = strL "other" := by
  rw [parseLineByLineFormat] at h
  obtain ⟨j, a, ha, rfl⟩ := mem_assignIds h
  obtain ⟨w, _, hw⟩ := List.mem_filterMap.mp ha
  show a.category = strL "other"
  exact (processWindow_fields hw).2

/-- Witness for claim C10 at a concrete 3-line window emission. -/
theorem claim_C10_witness :
    ((parseLineByLineFormat genericPattern (strL "2025-10-11")
        [strL "01/01/2024 COFFEE 250.00", strL "second line",
         strL "third line"]).headD
      ⟨[], [], [], 0, .credit, [], false, 0, none, none⟩).category =
      strL "other" :=
  claim_C10 genericPattern (strL "2025-10-11")
    [strL "01/01/2024 COFFEE 250.00", strL "second line", strL "third line"]
    _ (by with_unfolding_all decide)

/-- Claim C8 counterexample: on the CSV of the claim the single emitted
transaction's category is "Other", not the cash category — the CSV
classifier's keyword table has no atm/cash entry. -/
theorem claim_C8_counterexample :
    (parseCSVFile
      (strL "Date,Narration,Debit,Credit,Balance\n01/04/2024,ATM WDL,500,,1200")
      (fun _ => []) (fun _ => [])).transactions.map (fun tx => tx.category) =
      [strL "Other"] ∧ strL "Other" ≠ strL "cash" :=
  ⟨by with_unfolding_all decide, by decide⟩

/-- Claim C8 (amended): the CSV with header Date,Narration,Debit,Credit,
Balance and row 01/04/2024,ATM WDL,500,,1200 yields exactly one
ParsedTransaction, with direction debit and amount 500, but with category
"Other": TRANSACTION_CATEGORIES (the CSV path's keyword table) contains no
cash category, so "ATM WDL" matches nothing; only the PDF-path classifier
maps "atm" to "cash". -/
theorem claim_C8_amended (dateConv : Str → Str) (idGen : Nat → Str) :
    (parseCSVFile
      (strL "Date,Narration,Debit,Credit,Balance\n01/04/2024,ATM WDL,500,,1200")
      dateConv idGen).errors = [] ∧
    (parseCSVFile
      (strL "Date,Narration,Debit,Credit,Balance\n01/04/2024,ATM WDL,500,,1200")
      dateConv idGen).transactions.map
      (fun tx => (tx.txType, tx.amount, tx.category)) =
      [(.debit, 500, strL "Other")] :=
  ⟨by with_unfolding_all rfl, by with_unfolding_all rfl⟩
